import Mathlib

/-
Verification of the preference-scoring and hybrid recommendation engine
(src/agents.py, src/onboarding.py, src/recommender.py) against its
natural-language specification.

Conventions of the shallow embedding:
* Python floats are modelled as exact rationals (ℚ); float literals such as
  0.6, 0.7, 0.3 become the rationals 3/5, 7/10, 3/10.
* Python dicts are modelled as association lists `List (String × α)` with
  unique keys; assignment `d[k] = v` keeps the position of an existing key
  (as Python dicts do) and appends a fresh key at the end.
* Calls to `random.random()` and friends are modelled by explicit oracle
  arguments (the drawn value is passed in), making every function a pure
  function of its inputs and its random draws.
* Timestamps are rationals measured in hours, so `timedelta(hours=h)` is
  subtraction of `h`.
* Fallible code (Python exceptions) returns `Except String α`, the error
  string naming the exception class.
-/

/-! ### Association-list helpers (Python dict model) -/

/-- Value stored under a key, as Python dict access `d[k]` / `d.get(k)`.
The embedding only builds lists with unique keys, so the first match is
the binding. -/
def alookup {α : Type} : List (String × α) → String → Option α
  | [], _ => none
  | (k, v) :: t, key => if k = key then some v else alookup t key

@[simp]
theorem alookup_nil {α : Type} (key : String) : alookup ([] : List (String × α)) key = none := rfl

@[simp]
theorem alookup_cons {α : Type} (k : String) (v : α) (t : List (String × α)) (key : String) :
    alookup ((k, v) :: t) key = if k = key then some v else alookup t key := rfl

/-- Keys of a dict, in storage order. -/
def akeys {α : Type} (d : List (String × α)) : List String := d.map (·.1)

@[simp]
theorem akeys_nil {α : Type} : akeys ([] : List (String × α)) = [] := rfl

@[simp]
theorem akeys_cons {α : Type} (k : String) (v : α) (t : List (String × α)) :
    akeys ((k, v) :: t) = k :: akeys t := rfl

theorem alookup_eq_none_iff {α : Type} (d : List (String × α)) (key : String) :
    alookup d key = none ↔ key ∉ akeys d := by
  induction d with
  | nil => simp
  | cons p t ih =>
    obtain ⟨k, v⟩ := p
    by_cases h : k = key
    · subst h; simp
    · have hk : ¬key = k := fun hh => h hh.symm
      simp only [alookup_cons, if_neg h, ih, akeys_cons, List.mem_cons]
      simp [hk]

theorem alookup_isSome_iff {α : Type} (d : List (String × α)) (key : String) :
    (alookup d key).isSome = true ↔ key ∈ akeys d := by
  rw [Option.isSome_iff_ne_none, ne_eq, alookup_eq_none_iff, not_not]

/-- Python dict assignment `d[k] = v`: an existing key keeps its position and
gets the new value, a fresh key is appended at the end. -/
def dictSet {α : Type} (d : List (String × α)) (k : String) (v : α) : List (String × α) :=
  if (alookup d k).isSome then d.map (fun p => if p.1 = k then (k, v) else p) else d ++ [(k, v)]

/-! ### Data model of src/agents.py -/

/-- GenrePreference (src/agents.py): a genre with a weight in [0,1]. -/
structure GenrePreference where
  genre : String
  weight : ℚ
deriving Repr, DecidableEq

/-- AudioFeaturePreference (src/agents.py): a feature name, a preferred
range `(lo, hi)` and a weight in [0,1]. -/
structure AudioFeaturePreference where
  feature_name : String
  lo : ℚ
  hi : ℚ
  weight : ℚ
deriving Repr, DecidableEq

/-- ListeningBehavior (src/agents.py): the probabilistic behavior parameters. -/
structure ListeningBehavior where
  avg_session_length : ℤ
  skip_probability : ℚ
  rating_probability : ℚ
  playlist_creation_frequency : ℚ
deriving Repr, DecidableEq

/-- Playlist (src/agents.py). Timestamps are rational hours. -/
structure Playlist where
  playlist_id : String
  name : String
  description : String
  songs : List String
  created_at : ℚ
  last_updated : ℚ
  genre_focus : Option String
deriving Repr, DecidableEq

/-- MusicAgent (src/agents.py): preferences, behavior and owned playlists. -/
structure MusicAgent where
  agent_id : String
  archetype : String
  genre_preferences : List GenrePreference
  feature_preferences : List AudioFeaturePreference
  behavior : ListeningBehavior
  playlists : List Playlist
deriving Repr, DecidableEq

/-- A song as formatted by SpotifyDataLoader._format_song_dict
(src/dataloader.py): metadata plus the five audio features. -/
structure Song where
  id : String
  name : String
  artist : String
  genre : String
  release_year : ℤ
  popularity : ℚ
  duration_ms : ℚ
  danceability : ℚ
  energy : ℚ
  acousticness : ℚ
  valence : ℚ
  tempo : ℚ
deriving Repr, DecidableEq

/-- Numeric-valued keys of the formatted song dict: `song_features[name]`
for the names whose values are numbers, `none` for a name that is not a
key (Python's `name in song_features` test). -/
def songNumericFeature (s : Song) (f : String) : Option ℚ :=
  if f = "danceability" then some s.danceability
  else if f = "energy" then some s.energy
  else if f = "acousticness" then some s.acousticness
  else if f = "valence" then some s.valence
  else if f = "tempo" then some s.tempo
  else if f = "release_year" then some (s.release_year : ℚ)
  else if f = "popularity" then some s.popularity
  else if f = "duration_ms" then some s.duration_ms
  else none

/-- Test `min_val <= feature_value <= max_val` for a feature preference on a
song; false when the feature name is not a key of the song dict. -/
def featureInRange (song : Song) (fp : AudioFeaturePreference) : Bool :=
  match songNumericFeature song fp.feature_name with
  | some v => decide (fp.lo ≤ v ∧ v ≤ fp.hi)
  | none => false

/-- One iteration of the feature-preference loops of
`should_listen_to_song` and `generate_rating` (src/agents.py lines 69-75 and
99-107): when the feature name is a key of the song dict, add the
contribution `g fp` to the running score and 1 to the running counter;
otherwise leave the state unchanged. -/
def featStep (song : Song) (g : AudioFeaturePreference → ℚ) (st : ℚ × ℕ)
    (fp : AudioFeaturePreference) : ℚ × ℕ :=
  if (songNumericFeature song fp.feature_name).isSome then (st.1 + g fp, st.2 + 1) else st

/-- The genre test of src/agents.py lines 63-64 and 93-94: membership of the
song's genre among the preferred genres followed by `next(...)`, i.e. the
first genre preference whose genre equals the song's genre. -/
def findGenrePref (a : MusicAgent) (song : Song) : Option GenrePreference :=
  a.genre_preferences.find? (fun gp => gp.genre == song.genre)

/-- MusicAgent.should_listen_to_song (src/agents.py lines 55-77): weighted
match score; returns `score / total_weight > 0.6` when `total_weight > 0`
and False otherwise. -/
def should_listen_to_song (a : MusicAgent) (song : Song) : Bool :=
  let init : ℚ × ℕ :=
    match findGenrePref a song with
    | some gp => (gp.weight, 1)
    | none => (0, 0)
  let res := a.feature_preferences.foldl
    (featStep song (fun fp => if featureInRange song fp then fp.weight else 0)) init
  if 0 < res.2 then decide ((3 : ℚ) / 5 < res.1 / (res.2 : ℚ)) else false

/-- Python 3 `round`: round half to even (banker's rounding), the rounding
used by `generate_rating`. -/
def pyRound (q : ℚ) : ℤ :=
  if q - ⌊q⌋ < 1 / 2 then ⌊q⌋
  else if 1 / 2 < q - ⌊q⌋ then ⌊q⌋ + 1
  else if ⌊q⌋ % 2 = 0 then ⌊q⌋ else ⌊q⌋ + 1

/-- MusicAgent.generate_rating (src/agents.py lines 79-112). The draw of
`random.random()` is the oracle argument `r`: the agent declines to rate
(returns `none`) when `r > rating_probability`. Otherwise the genre and
feature adjustments are accumulated and the rating is
`max 1 (min 5 (round (3 + adjustments / count)))`, or the base score 3 when
no preference contributed. -/
def generate_rating (a : MusicAgent) (song : Song) (r : ℚ) : Option ℤ :=
  if a.behavior.rating_probability < r then none
  else
    let init : ℚ × ℕ :=
      match findGenrePref a song with
      | some gp => (2 * gp.weight, 1)
      | none => (0, 0)
    let res := a.feature_preferences.foldl
      (featStep song
        (fun fp => if featureInRange song fp then 2 * fp.weight else -(2 * fp.weight))) init
    if 0 < res.2 then some (max 1 (min 5 (pyRound (3 + res.1 / (res.2 : ℚ))))) else some 3

/-! ### Spec-side affinity and rating aggregates (claims C1 and C5) -/

/-- Feature preferences of the agent whose feature name is a key of the
song dict ("present on the song"). -/
def presentFeaturePrefs (a : MusicAgent) (song : Song) : List AudioFeaturePreference :=
  a.feature_preferences.filter (fun fp => (songNumericFeature song fp.feature_name).isSome)

/-- Affinity score as the claim states it: the matching genre preference's
weight (if any) plus, for every present feature preference, its weight when
the song's value lies in the preferred range. -/
def affinityScore (a : MusicAgent) (song : Song) : ℚ :=
  (match findGenrePref a song with
   | some gp => gp.weight
   | none => 0)
  + ((presentFeaturePrefs a song).map
      (fun fp => if featureInRange song fp then fp.weight else 0)).sum

/-- Affinity total weight as the claim states it: 1 for a matching genre
preference plus 1 for every present feature preference. -/
def affinityTotalWeight (a : MusicAgent) (song : Song) : ℕ :=
  (if (findGenrePref a song).isSome then 1 else 0) + (presentFeaturePrefs a song).length

/-- Rating adjustment accumulator as the claim states it: `2 * weight` for a
matching genre preference, `+2 * weight` / `-2 * weight` for each present
feature preference in / out of range. -/
def ratingAdjustment (a : MusicAgent) (song : Song) : ℚ :=
  (match findGenrePref a song with
   | some gp => 2 * gp.weight
   | none => 0)
  + ((presentFeaturePrefs a song).map
      (fun fp => if featureInRange song fp then 2 * fp.weight else -(2 * fp.weight))).sum

/-- Folding `featStep` over the feature preferences adds the contributions of
the present preferences to the score and their number to the counter. -/
theorem foldl_featStep (song : Song) (g : AudioFeaturePreference → ℚ)
    (l : List AudioFeaturePreference) (init : ℚ × ℕ) :
    l.foldl (featStep song g) init
      = (init.1 + ((l.filter
            (fun fp => (songNumericFeature song fp.feature_name).isSome)).map g).sum,
         init.2 + (l.filter
            (fun fp => (songNumericFeature song fp.feature_name).isSome)).length) := by
  induction l generalizing init with
  | nil => simp
  | cons fp t ih =>
    simp only [List.foldl_cons, featStep]
    by_cases h : (songNumericFeature song fp.feature_name).isSome
    · have hf : (fp :: t).filter (fun q => (songNumericFeature song q.feature_name).isSome)
          = fp :: t.filter (fun q => (songNumericFeature song q.feature_name).isSome) :=
        List.filter_cons_of_pos h
      rw [if_pos h, ih, hf, List.map_cons, List.sum_cons, List.length_cons]
      exact Prod.ext (by dsimp; ring) (by dsimp; omega)
    · have hf : (fp :: t).filter (fun q => (songNumericFeature song q.feature_name).isSome)
          = t.filter (fun q => (songNumericFeature song q.feature_name).isSome) :=
        List.filter_cons_of_neg (by simpa using h)
      rw [if_neg h, ih, hf]

/-- The affinity decision equals the threshold test on the spec-side
aggregates. -/
theorem should_listen_to_song_eq (a : MusicAgent) (s : Song) :
    should_listen_to_song a s
      = if 0 < affinityTotalWeight a s
        then decide ((3 : ℚ) / 5 < affinityScore a s / (affinityTotalWeight a s : ℚ))
        else false := by
  unfold should_listen_to_song affinityScore affinityTotalWeight presentFeaturePrefs
  cases hg : findGenrePref a s with
  | none => simp [foldl_featStep]
  | some gp => simp [foldl_featStep]

/-- Components of the rating accumulator fold agree with the spec-side
aggregates. -/
theorem generate_rating_eq (a : MusicAgent) (s : Song) (r : ℚ) :
    generate_rating a s r
      = if a.behavior.rating_probability < r then none
        else if 0 < affinityTotalWeight a s
          then some (max 1 (min 5 (pyRound
            (3 + ratingAdjustment a s / (affinityTotalWeight a s : ℚ)))))
          else some 3 := by
  unfold generate_rating ratingAdjustment affinityTotalWeight presentFeaturePrefs
  cases hg : findGenrePref a s with
  | none => simp [foldl_featStep]
  | some gp => simp [foldl_featStep]

/-- C1: for every agent and every song, should_listen_to_song returns true
iff total_weight > 0 and score / total_weight > 0.6, where score adds the
matching genre preference's weight and the weight of every present
in-range feature preference and total_weight counts the genre match and
every present feature preference; it is false, without raising, whenever
total_weight = 0, in particular for an agent with no genre and no feature
preferences. -/
theorem should_listen_to_song_correct (a : MusicAgent) (s : Song) :
    (should_listen_to_song a s = true ↔
      0 < affinityTotalWeight a s ∧
        (3 : ℚ) / 5 < affinityScore a s / (affinityTotalWeight a s : ℚ))
    ∧ (affinityTotalWeight a s = 0 → should_listen_to_song a s = false)
    ∧ (a.genre_preferences = [] → a.feature_preferences = [] →
        should_listen_to_song a s = false) := by
  refine ⟨?_, ?_, ?_⟩
  · rw [should_listen_to_song_eq]
    by_cases h0 : 0 < affinityTotalWeight a s
    · simp [h0]
    · simp [h0]
  · intro h
    rw [should_listen_to_song_eq]
    simp [h]
  · intro hg hf
    rw [should_listen_to_song_eq]
    simp [affinityTotalWeight, presentFeaturePrefs, findGenrePref, hg, hf]

/-- A pop-leaning example agent used to instantiate the theorems. -/
def agentEx : MusicAgent :=
  { agent_id := "agent_pop", archetype := "pop_enthusiast",
    genre_preferences := [⟨"pop", 4/5⟩, ⟨"dance", 2/5⟩],
    feature_preferences := [⟨"danceability", 3/5, 1, 7/10⟩, ⟨"energy", 1/2, 9/10, 3/5⟩],
    behavior := ⟨45, 3/10, 1/5, 1/10⟩, playlists := [] }

/-- An agent with no genre and no feature preferences. -/
def emptyPrefsAgent : MusicAgent :=
  { agent_id := "agent_empty", archetype := "blank",
    genre_preferences := [], feature_preferences := [],
    behavior := ⟨45, 0, 1, 0⟩, playlists := [] }

/-- A concrete pop song used to instantiate the theorems. -/
def songEx : Song :=
  { id := "s1", name := "Track", artist := "Artist", genre := "pop",
    release_year := 2020, popularity := 80, duration_ms := 200000,
    danceability := 7/10, energy := 3/5, acousticness := 1/10, valence := 1/2, tempo := 120 }

/-- Witness for C1: the example agent accepts the example song
(total_weight 3, score 21/10, 21/30 > 3/5), and the preference-free agent
rejects every song through the total_weight = 0 branch. -/
theorem should_listen_to_song_correct_witness :
    should_listen_to_song agentEx songEx = true
    ∧ should_listen_to_song emptyPrefsAgent songEx = false := by
  constructor
  · apply (should_listen_to_song_correct agentEx songEx).1.mpr
    have h1 : affinityTotalWeight agentEx songEx = 3 := by
      simp [affinityTotalWeight, presentFeaturePrefs, findGenrePref, songNumericFeature,
        agentEx, songEx, List.find?]
    have h2 : affinityScore agentEx songEx = 21/10 := by
      simp [affinityScore, presentFeaturePrefs, findGenrePref, featureInRange,
        songNumericFeature, agentEx, songEx, List.find?]
      norm_num
    rw [h1, h2]
    norm_num
  · exact (should_listen_to_song_correct emptyPrefsAgent songEx).2.2 rfl rfl

/-- C5: generate_rating returns either absent or an integer in [1,5], never
0 and never more than 5; when the agent rates (draw at most
rating_probability), a positive counter yields
round(3 + accumulator/counter) clamped to [1,5] and a zero counter yields
the base score 3. -/
theorem generate_rating_correct (a : MusicAgent) (s : Song) (r : ℚ) :
    (generate_rating a s r = none
      ∨ ∃ k : ℤ, generate_rating a s r = some k ∧ 1 ≤ k ∧ k ≤ 5)
    ∧ (r ≤ a.behavior.rating_probability →
        (0 < affinityTotalWeight a s →
          generate_rating a s r = some (max 1 (min 5 (pyRound
            (3 + ratingAdjustment a s / (affinityTotalWeight a s : ℚ))))))
        ∧ (affinityTotalWeight a s = 0 → generate_rating a s r = some 3)) := by
  constructor
  · rw [generate_rating_eq]
    by_cases hr : a.behavior.rating_probability < r
    · left; simp [hr]
    · right
      by_cases h0 : 0 < affinityTotalWeight a s
      · exact ⟨max 1 (min 5 (pyRound
            (3 + ratingAdjustment a s / (affinityTotalWeight a s : ℚ)))),
          by simp [hr, h0], le_max_left _ _, max_le (by norm_num) (min_le_left _ _)⟩
      · exact ⟨3, by simp [hr, h0], by norm_num, by norm_num⟩
  · intro hr
    have hr' : ¬a.behavior.rating_probability < r := not_lt.mpr hr
    constructor
    · intro h0
      rw [generate_rating_eq]
      simp [hr', h0]
    · intro h0
      rw [generate_rating_eq]
      simp [hr', h0]

/-- Witness for C5: the example agent rates the example song with draw 1/10
(at most its rating probability 1/5); the counter is 3 and the clamped
rounded rating is produced. -/
theorem generate_rating_correct_witness :
    generate_rating agentEx songEx (1/10) = some (max 1 (min 5 (pyRound
      (3 + ratingAdjustment agentEx songEx / (affinityTotalWeight agentEx songEx : ℚ))))) := by
  apply ((generate_rating_correct agentEx songEx (1/10)).2 (by norm_num [agentEx])).1
  simp [affinityTotalWeight, presentFeaturePrefs, findGenrePref, songNumericFeature,
    agentEx, songEx, List.find?]

/-! ### create_playlist (src/agents.py, claim C4) -/

/-- Cumulative-weight pick of random.choices: walk the population with the
target `t` (the draw scaled by the total weight), returning the first
element whose cumulative weight exceeds it; the last element is the
fallback at the upper boundary. -/
def pickCum : List (String × ℚ) → ℚ → String → String
  | [], _, dflt => dflt
  | (g, w) :: rest, t, _ => if t < w then g else pickCum rest (t - w) g

/-- Python random.choices(population, weights)[0] with draw `u` in [0,1):
raises ValueError for mismatched lengths, an empty population or a
non-positive weight total; otherwise picks by cumulative weight. -/
def pyChoices (pop : List String) (ws : List ℚ) (u : ℚ) : Except String String :=
  if pop.length ≠ ws.length ∨ pop = [] ∨ ws.sum ≤ 0 then Except.error "ValueError"
  else Except.ok (pickCum (pop.zip ws) (u * ws.sum) "")

/-- MusicAgent.create_playlist (src/agents.py lines 151-196). Oracle
arguments stand for the random draws: `gateDraw` for the creation gate,
`uGenre` for the weighted genre choice, `sizeDraw` for
random.randint(10, 30) (mapped into [10, 30]), `sampleOracle` for
random.sample, `freshId` for the uuid-based id and `now` for
datetime.now(). In mixed mode (playlist_type other than "genre") the source
executes `name = self.generate_playlist_metadata()`; MusicAgent defines no
attribute of that name — its naming helper is `generate_playlist_name` —
so Python raises AttributeError at that line, before any song filtering. -/
def create_playlist (a : MusicAgent) (available : List Song) (ptype : String)
    (gateDraw uGenre : ℚ) (sizeDraw : ℕ) (sampleOracle : List Song → ℕ → List Song)
    (freshId : String) (now : ℚ) : Except String (Option Playlist) :=
  if a.behavior.playlist_creation_frequency < gateDraw then Except.ok none
  else
    let genre_weights := a.genre_preferences.map (·.weight)
    let primary_genres := a.genre_preferences.map (·.genre)
    if ptype = "genre" then
      match pyChoices primary_genres genre_weights uGenre with
      | Except.error e => Except.error e
      | Except.ok chosen_genre =>
        let pname := "My " ++ chosen_genre.capitalize ++ " Mix Vol." ++
          toString ((a.playlists.filter
            (fun p => p.genre_focus = some chosen_genre)).length + 1)
        let pdesc := "A curated collection of " ++ chosen_genre ++ " tracks"
        let suitable := available.filter (fun song => should_listen_to_song a song)
        if suitable.isEmpty then Except.ok none
        else
          let playlist_size := 10 + sizeDraw % 21
          let selected := sampleOracle suitable (min playlist_size suitable.length)
          Except.ok (some ⟨freshId, pname, pdesc, selected.map (·.id),
            now, now, some chosen_genre⟩)
    else
      Except.error "AttributeError"

/-! ### Recommender data model (src/recommender.py, src/onboarding.py) -/

/-- An entry of an agent's interaction history
(RecommenderManager.add_interaction and the onboarding ratings):
a song id, an optional rating and a timestamp in hours. -/
structure Interaction where
  song_id : String
  rating : Option ℤ
  timestamp : ℚ
deriving Repr, DecidableEq

/-- The feature_preferences dict of an onboarding history: after
_create_onboarding_history it always holds exactly the five audio
features. -/
structure FeatureProfile where
  danceability : ℚ
  energy : ℚ
  acousticness : ℚ
  valence : ℚ
  tempo : ℚ
deriving Repr, DecidableEq

/-- An onboarding history as produced by
OnboardingManager._create_onboarding_history (src/onboarding.py):
the rating session, the genre → mean-rating dict and the feature profile. -/
structure OnboardHistory where
  ratings : List Interaction
  genre_preferences : List (String × ℚ)
  feature_preferences : FeatureProfile
deriving Repr, DecidableEq

/-- The state a RecommenderManager closes over: the catalog rows
(data_loader.data), the onboarding histories and the interaction
histories. -/
structure RecommenderState where
  songs : List Song
  onboarding_histories : List (String × OnboardHistory)
  interaction_histories : List (String × List Interaction)

/-- SpotifyDataLoader.get_song_by_id (src/dataloader.py lines 33-41): the
first catalog row with the id, None when absent. -/
def get_song_by_id (st : RecommenderState) (sid : String) : Option Song :=
  st.songs.find? (fun s => s.id == sid)

/-- Python truthiness of an optional rating (`if interaction['rating']:`):
false for None and for 0. -/
def ratingTruthy (r : Option ℤ) : Bool :=
  match r with
  | none => false
  | some v => v != 0

/-- Feature similarity of _get_content_based_recommendations
(src/recommender.py lines 50-53): the mean over the five profile features
of `abs(1 - abs(song[feature] - pref_value))` — note the outer abs in the
source. -/
def featureSimilarity (p : FeatureProfile) (s : Song) : ℚ :=
  (abs (1 - abs (s.danceability - p.danceability)) + abs (1 - abs (s.energy - p.energy))
    + abs (1 - abs (s.acousticness - p.acousticness))
    + abs (1 - abs (s.valence - p.valence))
    + abs (1 - abs (s.tempo - p.tempo))) / 5

/-- Feature similarity as the claim words it: the mean of
`1 - |song_feature - profile_feature|`, without the source's outer abs. -/
def featureSimilarityClaim (p : FeatureProfile) (s : Song) : ℚ :=
  ((1 - abs (s.danceability - p.danceability)) + (1 - abs (s.energy - p.energy))
    + (1 - abs (s.acousticness - p.acousticness)) + (1 - abs (s.valence - p.valence))
    + (1 - abs (s.tempo - p.tempo))) / 5

/-- Genre bonus of _get_content_based_recommendations (src/recommender.py
lines 55-57): `genre_preferences[song.genre] / 5` when the song's genre is
a key, 0 otherwise. -/
def genreBonus (gp : List (String × ℚ)) (s : Song) : ℚ :=
  match alookup gp s.genre with
  | some w => w / 5
  | none => 0

/-- The content-based score of a catalog song (src/recommender.py line 59). -/
def contentScore (h : OnboardHistory) (s : Song) : ℚ :=
  featureSimilarity h.feature_preferences s + genreBonus h.genre_preferences s

/-- Catalog songs in descending content-score order, the order produced by
`np.argsort(feature_scores)[-n*2:][::-1]` (ties resolved by the sort). -/
def rankSongs (h : OnboardHistory) (songs : List Song) : List Song :=
  List.insertionSort (fun x y => contentScore h y ≤ contentScore h x) songs

/-- RecommenderManager._is_recently_recommended (src/recommender.py lines
189-205): true when the agent's interaction history holds an entry for the
song with timestamp after `now - hours`. -/
def is_recently_recommended (st : RecommenderState) (aid sid : String)
    (now hours : ℚ) : Bool :=
  match alookup st.interaction_histories aid with
  | none => false
  | some l => (l.filter (fun i => now - hours < i.timestamp)).any
      (fun i => i.song_id == sid)

/-- RecommenderManager._get_content_based_recommendations
(src/recommender.py lines 39-70): with no onboarding history, `n` random
songs (the `randomSongs` oracle); otherwise the top `2n` catalog songs by
content score, minus the recently recommended ones, first `n` kept. -/
def get_content_based_recommendations (st : RecommenderState) (a : MusicAgent)
    (n : ℕ) (now : ℚ) (randomSongs : ℕ → List Song) : List Song :=
  match alookup st.onboarding_histories a.agent_id with
  | none => randomSongs n
  | some h =>
    let top := (rankSongs h st.songs).take (2 * n)
    (top.filter (fun sd => !is_recently_recommended st a.agent_id sd.id now 24)).take n

/-- C4 evaluation at the failing input: with the creation gate passed
(draw 0 at most the agent's playlist_creation_frequency), a request for a
playlist of type "mixed" raises AttributeError — the source calls the
undefined method generate_playlist_metadata — instead of completing. -/
theorem create_playlist_mixed_raises :
    create_playlist agentEx [songEx] "mixed" 0 0 0 (fun l _ => l) "pl_1" 0
      = Except.error "AttributeError" := by
  unfold create_playlist
  rw [if_neg (by norm_num [agentEx])]
  simp

/-- The onboarding profile with every feature preference 1/2. -/
def profileEx : FeatureProfile := ⟨1/2, 1/2, 1/2, 1/2, 1/2⟩

/-- C2 counterexample: on the example song (tempo 120, the catalog's raw
tempo scale) the source's feature similarity — mean of
abs(1 - abs(song - profile)) — differs from the claim's mean of
(1 - abs(song - profile)): the tempo term has |song - profile| > 1, where
the outer abs of the source flips the sign. -/
theorem featureSimilarity_counterexample :
    featureSimilarity profileEx songEx ≠ featureSimilarityClaim profileEx songEx := by
  have h0 : 0 ≤ featureSimilarity profileEx songEx := by
    unfold featureSimilarity
    positivity
  have h1 : featureSimilarityClaim profileEx songEx < 0 := by
    simp only [featureSimilarityClaim, profileEx, songEx]
    have ht := le_abs_self ((120 : ℚ) - 1/2)
    have a1 := abs_nonneg ((7 : ℚ)/10 - 1/2)
    have a2 := abs_nonneg ((3 : ℚ)/5 - 1/2)
    have a3 := abs_nonneg ((1 : ℚ)/10 - 1/2)
    have a4 := abs_nonneg ((1 : ℚ)/2 - 1/2)
    linarith
  intro he
  rw [he] at h0
  linarith

/-- C2 (amended): the content-based score is the source's feature
similarity (mean of abs(1 - abs(song - profile)) over the five profile
features, equal to the claimed mean of 1 - abs(song - profile) whenever
every feature difference is at most 1 in absolute value) plus the genre
bonus profile[genre]/5 for a genre that is a key of the profile and 0
otherwise, and the candidate ranking is descending by that score. -/
theorem content_scoring_correct (h : OnboardHistory) (s : Song) (songs : List Song) :
    ((abs (s.danceability - h.feature_preferences.danceability) ≤ 1
      ∧ abs (s.energy - h.feature_preferences.energy) ≤ 1
      ∧ abs (s.acousticness - h.feature_preferences.acousticness) ≤ 1
      ∧ abs (s.valence - h.feature_preferences.valence) ≤ 1
      ∧ abs (s.tempo - h.feature_preferences.tempo) ≤ 1) →
      featureSimilarity h.feature_preferences s = featureSimilarityClaim h.feature_preferences s)
    ∧ (∀ w, alookup h.genre_preferences s.genre = some w →
        genreBonus h.genre_preferences s = w / 5)
    ∧ (s.genre ∉ akeys h.genre_preferences → genreBonus h.genre_preferences s = 0)
    ∧ contentScore h s
        = featureSimilarity h.feature_preferences s + genreBonus h.genre_preferences s
    ∧ List.Sorted (fun x y => contentScore h y ≤ contentScore h x) (rankSongs h songs) := by
  refine ⟨?_, ?_, ?_, rfl, ?_⟩
  · rintro ⟨h1, h2, h3, h4, h5⟩
    unfold featureSimilarity featureSimilarityClaim
    rw [abs_of_nonneg (by linarith : (0:ℚ) ≤ 1 - abs (s.danceability - h.feature_preferences.danceability)),
      abs_of_nonneg (by linarith : (0:ℚ) ≤ 1 - abs (s.energy - h.feature_preferences.energy)),
      abs_of_nonneg (by linarith : (0:ℚ) ≤ 1 - abs (s.acousticness - h.feature_preferences.acousticness)),
      abs_of_nonneg (by linarith : (0:ℚ) ≤ 1 - abs (s.valence - h.feature_preferences.valence)),
      abs_of_nonneg (by linarith : (0:ℚ) ≤ 1 - abs (s.tempo - h.feature_preferences.tempo))]
  · intro w hw
    unfold genreBonus
    rw [hw]
  · intro hn
    unfold genreBonus
    rw [(alookup_eq_none_iff _ _).mpr hn]
  · haveI : IsTotal Song (fun x y => contentScore h y ≤ contentScore h x) :=
      ⟨fun a b => le_total (contentScore h b) (contentScore h a)⟩
    haveI : IsTrans Song (fun x y => contentScore h y ≤ contentScore h x) :=
      ⟨fun a b c hab hbc => le_trans hbc hab⟩
    exact List.sorted_insertionSort _ _

/-- An onboarding history whose feature profile is close to the example
song (tempo included), with one genre key. -/
def histW : OnboardHistory := ⟨[], [("pop", 9/2)], ⟨1/2, 1/2, 1/2, 1/2, 120⟩⟩

/-- Witness for the amended C2: on the example song every feature
difference of histW's profile is at most 1, so the source similarity and
the claimed similarity agree there. -/
theorem content_scoring_correct_witness :
    featureSimilarity histW.feature_preferences songEx
      = featureSimilarityClaim histW.feature_preferences songEx :=
  (content_scoring_correct histW songEx []).1
    (by norm_num [histW, songEx, abs_le])

/-- The example agent registered under agent id "X". -/
def agentX : MusicAgent := { agentEx with agent_id := "X" }

/-- A recommender state where agent X interacted with song s1 at times 0
and 20 (both interactions unrated). -/
def stC8 : RecommenderState :=
  ⟨[songEx], [("X", histW)],
    [("X", [⟨"s1", none, 0⟩, ⟨"s1", none, 20⟩])]⟩

/-- C8 counterexample: the ledger records an interaction of agent X with
song s1 at time T = 0 and the request time is T' = 25, so T' - T ≥ 24
hours; the claim calls s1 eligible again, yet the recency filter still
reports it as recently recommended, because of the second interaction at
time 20. -/
theorem recency_claim_counterexample :
    alookup stC8.interaction_histories "X"
        = some [⟨"s1", none, 0⟩, ⟨"s1", none, 20⟩]
    ∧ (⟨"s1", none, 0⟩ : Interaction) ∈ [(⟨"s1", none, 0⟩ : Interaction), ⟨"s1", none, 20⟩]
    ∧ (24 : ℚ) ≤ 25 - 0
    ∧ is_recently_recommended stC8 "X" "s1" 25 24 = true := by
  refine ⟨by simp [stC8], by simp, by norm_num, ?_⟩
  simp only [is_recently_recommended, stC8]
  norm_num

/-- C8 (amended): for an onboarded agent, a song is reported recently
recommended exactly when the ledger holds an interaction of the agent with
it strictly newer than 24 hours before the request; such a song never
appears among the content-based candidates, and it is eligible again once
every ledger interaction with it is at least 24 hours old. -/
theorem recency_filter_correct (st : RecommenderState) (a : MusicAgent) (n : ℕ)
    (now : ℚ) (randomSongs : ℕ → List Song) (sid : String) :
    (is_recently_recommended st a.agent_id sid now 24 = true →
      (alookup st.onboarding_histories a.agent_id).isSome →
      sid ∉ (get_content_based_recommendations st a n now randomSongs).map (·.id))
    ∧ (is_recently_recommended st a.agent_id sid now 24 = true ↔
        ∃ l, alookup st.interaction_histories a.agent_id = some l
          ∧ ∃ i ∈ l, i.song_id = sid ∧ now - i.timestamp < 24) := by
  constructor
  · intro hrec hsome hmem
    unfold get_content_based_recommendations at hmem
    cases hh : alookup st.onboarding_histories a.agent_id with
    | none => rw [hh] at hsome; simp at hsome
    | some h =>
      rw [hh] at hmem
      obtain ⟨x, hx, hxid⟩ := List.mem_map.mp hmem
      have hx' := List.mem_of_mem_take hx
      have hp := (List.mem_filter.mp hx').2
      rw [hxid] at hp
      rw [hrec] at hp
      simp at hp
  · unfold is_recently_recommended
    cases hh : alookup st.interaction_histories a.agent_id with
    | none => simp
    | some l =>
      rw [List.any_eq_true]
      constructor
      · rintro ⟨i, hm, hs⟩
        have hf := List.mem_filter.mp hm
        refine ⟨l, rfl, i, hf.1, by simpa using hs, ?_⟩
        have ht := of_decide_eq_true hf.2
        linarith
      · rintro ⟨l', hl', i, hm, hsid, ht⟩
        have hll : l = l' := by
          injection hl'
        subst hll
        refine ⟨i, List.mem_filter.mpr ⟨hm, ?_⟩, by simpa using hsid⟩
        exact decide_eq_true (by linarith)

/-- Witness for the amended C8: in the state stC8 the interaction at time
20 is within 24 hours of the request time 25, so song s1 is excluded from
agent X's content-based candidates. -/
theorem recency_filter_correct_witness :
    "s1" ∉ (get_content_based_recommendations stC8 agentX 5 25 (fun _ => [])).map (·.id) := by
  apply (recency_filter_correct stC8 agentX 5 25 (fun _ => []) "s1").1
  · simp only [is_recently_recommended, stC8, agentX, agentEx]
    norm_num
  · simp [stC8, agentX, agentEx]

/-! ### Onboarding profile builder (src/onboarding.py, claim C9) -/

/-- Session entries whose song id resolves in the catalog, paired with the
entry's rating; entries whose lookup returns None are skipped
(src/onboarding.py lines 87-89). -/
def foundEntries (st : RecommenderState) (rs : List Interaction) : List (Song × Option ℤ) :=
  rs.filterMap (fun r => (get_song_by_id st r.song_id).map (fun song => (song, r.rating)))

/-- Genres of the resolved session songs: the keys of avg_rating_by_genre. -/
def sessionGenres (st : RecommenderState) (rs : List Interaction) : List String :=
  ((foundEntries st rs).map (fun e => e.1.genre)).dedup

/-- Truthy ratings collected for genre `g` — the avg_rating_by_genre bucket
of src/onboarding.py lines 90-94. -/
def genreSessionRatings (st : RecommenderState) (rs : List Interaction) (g : String) :
    List ℚ :=
  (foundEntries st rs).filterMap (fun e =>
    if e.1.genre = g ∧ ratingTruthy e.2 = true then e.2.map (fun v => (v : ℚ)) else none)

/-- Resolved session songs with a truthy rating of at least 4
(src/onboarding.py lines 96-98). -/
def likedSongs (st : RecommenderState) (rs : List Interaction) : List Song :=
  (foundEntries st rs).filterMap (fun e =>
    match e.2 with
    | some v => if v ≠ 0 ∧ 4 ≤ v then some e.1 else none
    | none => none)

/-- Mean of a list of rationals with a default value for the empty list
(the genre means and the 0.5 feature fallback of src/onboarding.py lines
100-110). -/
def meanOr (l : List ℚ) (dflt : ℚ) : ℚ := if l = [] then dflt else l.sum / (l.length : ℚ)

/-- OnboardingManager._create_onboarding_history (src/onboarding.py lines
72-118): genre → mean of its truthy session ratings (a genre with no
truthy rating is omitted by the dict comprehension), and the five feature
means over the liked songs with default 0.5. The Python dict lists genres
in first-seen order while List.dedup keeps another order; the dict is only
ever read by key lookup (src/recommender.py lines 56-57), which the
embedding preserves. -/
def create_onboarding_history (st : RecommenderState) (rs : List Interaction) :
    OnboardHistory :=
  let liked := likedSongs st rs
  ⟨rs,
   (sessionGenres st rs).filterMap (fun g =>
     if genreSessionRatings st rs g = [] then none
     else some (g, (genreSessionRatings st rs g).sum / ((genreSessionRatings st rs g).length : ℚ))),
   ⟨meanOr (liked.map (·.danceability)) (1/2),
    meanOr (liked.map (·.energy)) (1/2),
    meanOr (liked.map (·.acousticness)) (1/2),
    meanOr (liked.map (·.valence)) (1/2),
    meanOr (liked.map (·.tempo)) (1/2)⟩⟩

/-- Ratings for genre `g` as the claim words it: the non-absent ratings of
session entries whose resolved song has genre `g`. -/
def specGenreRatings (st : RecommenderState) (rs : List Interaction) (g : String) :
    List ℚ :=
  rs.filterMap (fun r =>
    match get_song_by_id st r.song_id, r.rating with
    | some song, some v => if song.genre = g then some (v : ℚ) else none
    | _, _ => none)

/-- Session songs whose rating is present and at least 4, as the claim
words it. -/
def specLikedSongs (st : RecommenderState) (rs : List Interaction) : List Song :=
  rs.filterMap (fun r =>
    match get_song_by_id st r.song_id, r.rating with
    | some song, some v => if 4 ≤ v then some song else none
    | _, _ => none)

/-- Every rating of the session is absent or an integer in [1,5] — the
shape generate_rating produces. -/
def ValidRatings (rs : List Interaction) : Prop :=
  ∀ i ∈ rs, i.rating = none ∨ ∃ v, i.rating = some v ∧ 1 ≤ v ∧ v ≤ 5

theorem genreSessionRatings_eq_spec (st : RecommenderState) (rs : List Interaction)
    (hv : ValidRatings rs) (g : String) :
    genreSessionRatings st rs g = specGenreRatings st rs g := by
  unfold genreSessionRatings specGenreRatings foundEntries
  rw [List.filterMap_filterMap]
  apply List.filterMap_congr
  intro r hr
  rcases hv r hr with h | ⟨v, hv', h1, h5⟩
  · cases hc : get_song_by_id st r.song_id <;> simp [h, hc]
  · cases hc : get_song_by_id st r.song_id with
    | none => simp [hc]
    | some song =>
      have hvne : (v != 0) = true := by simp; omega
      simp [hc, hv', ratingTruthy, hvne]

theorem likedSongs_eq_spec (st : RecommenderState) (rs : List Interaction)
    (hv : ValidRatings rs) :
    likedSongs st rs = specLikedSongs st rs := by
  unfold likedSongs specLikedSongs foundEntries
  rw [List.filterMap_filterMap]
  apply List.filterMap_congr
  intro r hr
  rcases hv r hr with h | ⟨v, hv', h1, h5⟩
  · cases hc : get_song_by_id st r.song_id <;> simp [h, hc]
  · cases hc : get_song_by_id st r.song_id with
    | none => simp [hc]
    | some song =>
      have hvne : v ≠ 0 := by omega
      simp [hc, hv', hvne]

theorem mem_sessionGenres_of_ratings (st : RecommenderState) (rs : List Interaction)
    (g : String) (h : genreSessionRatings st rs g ≠ []) : g ∈ sessionGenres st rs := by
  unfold genreSessionRatings at h
  rw [ne_eq, List.filterMap_eq_nil_iff] at h
  push_neg at h
  obtain ⟨e, he, hne⟩ := h
  have hg : e.1.genre = g := by
    by_contra hgg
    exact hne (by simp [hgg])
  unfold sessionGenres
  rw [List.mem_dedup]
  exact List.mem_map.mpr ⟨e, he, hg⟩

/-- Keyed filterMap lookup: over nodup keys, looking up `key` in the dict
built by keeping exactly the keys not satisfying `Q` returns the value at
`key` iff `key` is a kept key. -/
theorem alookup_filterMap_ite {α : Type} (ks : List String) (Q : String → Prop)
    [DecidablePred Q] (f : String → α) (key : String) (hnd : ks.Nodup) :
    alookup (ks.filterMap (fun g => if Q g then none else some (g, f g))) key
      = if key ∈ ks ∧ ¬Q key then some (f key) else none := by
  induction ks with
  | nil => simp
  | cons g t ih =>
    obtain ⟨hg, ht⟩ := List.nodup_cons.mp hnd
    by_cases hQ : Q g
    · rw [List.filterMap_cons_none (by simp [hQ]), ih ht]
      by_cases hk : key = g
      · subst hk
        simp [hQ, hg]
      · simp [hk]
    · rw [List.filterMap_cons_some (by simp [hQ] : _ = some (g, f g))]
      by_cases hk : g = key
      · subst hk
        simp [hQ]
      · have hk' : ¬key = g := fun hh => hk hh.symm
        rw [alookup_cons, if_neg hk, ih ht]
        simp [hk']

/-- C9: for every rating session with valid ratings (absent or in [1,5]),
the produced onboarding profile maps each genre that received at least one
non-absent rating to the mean of those ratings (and has no entry for other
genres), and maps each of the five audio features to the mean of that
feature over the session songs rated at least 4, defaulting to 0.5 when no
such song exists. -/
theorem onboarding_history_correct (st : RecommenderState) (rs : List Interaction)
    (hv : ValidRatings rs) (g : String) :
    (alookup (create_onboarding_history st rs).genre_preferences g
      = if specGenreRatings st rs g = [] then none
        else some ((specGenreRatings st rs g).sum / ((specGenreRatings st rs g).length : ℚ)))
    ∧ (create_onboarding_history st rs).feature_preferences
        = ⟨meanOr ((specLikedSongs st rs).map (·.danceability)) (1/2),
           meanOr ((specLikedSongs st rs).map (·.energy)) (1/2),
           meanOr ((specLikedSongs st rs).map (·.acousticness)) (1/2),
           meanOr ((specLikedSongs st rs).map (·.valence)) (1/2),
           meanOr ((specLikedSongs st rs).map (·.tempo)) (1/2)⟩ := by
  constructor
  · show alookup ((sessionGenres st rs).filterMap (fun g =>
      if genreSessionRatings st rs g = [] then none
      else some (g, (genreSessionRatings st rs g).sum
        / ((genreSessionRatings st rs g).length : ℚ)))) g = _
    rw [alookup_filterMap_ite (sessionGenres st rs)
      (fun g => genreSessionRatings st rs g = [])
      (fun g => (genreSessionRatings st rs g).sum / ((genreSessionRatings st rs g).length : ℚ))
      g (List.nodup_dedup _)]
    rw [genreSessionRatings_eq_spec st rs hv g]
    by_cases hsp : specGenreRatings st rs g = []
    · simp [hsp]
    · have hmem : g ∈ sessionGenres st rs :=
        mem_sessionGenres_of_ratings st rs g
          (by rw [genreSessionRatings_eq_spec st rs hv g]; exact hsp)
      simp [hsp, hmem]
  · show (⟨meanOr ((likedSongs st rs).map (·.danceability)) (1/2),
      meanOr ((likedSongs st rs).map (·.energy)) (1/2),
      meanOr ((likedSongs st rs).map (·.acousticness)) (1/2),
      meanOr ((likedSongs st rs).map (·.valence)) (1/2),
      meanOr ((likedSongs st rs).map (·.tempo)) (1/2)⟩ : FeatureProfile) = _
    rw [likedSongs_eq_spec st rs hv]

/-- A one-song catalog state for the onboarding witness. -/
def stOnb : RecommenderState := ⟨[songEx], [], []⟩

/-- The onboarding session of the witness: one rating of 5 for song s1. -/
def rsOnb : List Interaction := [⟨"s1", some 5, 0⟩]

/-- Witness for C9: in a session that rates the pop song s1 with 5, the
profile's entry for genre "pop" is the mean of that genre's ratings. -/
theorem onboarding_history_correct_witness :
    alookup (create_onboarding_history stOnb rsOnb).genre_preferences "pop"
      = some ((specGenreRatings stOnb rsOnb "pop").sum
          / ((specGenreRatings stOnb rsOnb "pop").length : ℚ)) := by
  have hv : ValidRatings rsOnb := by
    intro i hi
    simp only [rsOnb, List.mem_singleton] at hi
    subst hi
    exact Or.inr ⟨5, rfl, by norm_num, by norm_num⟩
  have h := (onboarding_history_correct stOnb rsOnb hv "pop").1
  rw [h, if_neg]
  simp [specGenreRatings, get_song_by_id, stOnb, rsOnb, songEx, List.find?]

/-! ### Merged per-agent rating maps (src/recommender.py, claim C10) -/

theorem alookup_map_replace {α : Type} (d : List (String × α)) (k : String) (v : α)
    (key : String) :
    alookup (d.map (fun p => if p.1 = k then (k, v) else p)) key
      = if k = key then (if (alookup d k).isSome then some v else none)
        else alookup d key := by
  induction d with
  | nil => simp
  | cons p t ih =>
    obtain ⟨pk, pv⟩ := p
    by_cases hpk : pk = k
    · subst hpk
      simp only [List.map_cons, ite_true, eq_self_iff_true]
      by_cases hk : pk = key
      · subst hk; simp
      · simp only [alookup_cons, if_neg hk]
        rw [ih, if_neg hk]
    · simp only [List.map_cons, if_neg hpk]
      by_cases hk : pk = key
      · subst hk
        have hkk : ¬k = pk := fun hh => hpk hh.symm
        simp [hkk]
      · simp only [alookup_cons, if_neg hk, ih]
        simp [hpk, hk]

theorem alookup_append {α : Type} (d e : List (String × α)) (key : String) :
    alookup (d ++ e) key = (alookup d key).or (alookup e key) := by
  induction d with
  | nil => simp
  | cons p t ih =>
    obtain ⟨pk, pv⟩ := p
    by_cases h : pk = key
    · simp [h]
    · simp [h, ih]

theorem alookup_dictSet {α : Type} (d : List (String × α)) (k : String) (v : α)
    (key : String) :
    alookup (dictSet d k v) key = if k = key then some v else alookup d key := by
  unfold dictSet
  by_cases hp : (alookup d k).isSome
  · rw [if_pos hp, alookup_map_replace]
    by_cases hk : k = key
    · subst hk
      simp [hp]
    · simp [hk]
  · rw [if_neg hp, alookup_append]
    by_cases hk : k = key
    · subst hk
      have hnone : alookup d k = none := by
        cases hc : alookup d k
        · rfl
        · rw [hc] at hp; simp at hp
      simp [hnone]
    · simp [hk, Option.or_none]

/-- The dict-building loops of RecommenderManager._get_agent_ratings
(src/recommender.py lines 145-153): assign each truthy rating under its
song id, later assignments overwriting earlier ones. -/
def addRatings (d : List (String × ℚ)) (l : List Interaction) : List (String × ℚ) :=
  l.foldl (fun d i =>
    if ratingTruthy i.rating then dictSet d i.song_id ((i.rating.getD 0 : ℤ) : ℚ) else d) d

/-- RecommenderManager._get_agent_ratings (src/recommender.py lines
142-155): onboarding session ratings first, then the agent's interaction
history, truthy ratings only, later entries overwriting earlier ones. -/
def get_agent_ratings (st : RecommenderState) (aid : String) : List (String × ℚ) :=
  let d0 := match alookup st.onboarding_histories aid with
    | some h => addRatings [] h.ratings
    | none => []
  match alookup st.interaction_histories aid with
  | some l => addRatings d0 l
  | none => d0

/-- The onboarding session ratings of an agent, empty when the agent was
never onboarded. -/
def onbSessionRatings (st : RecommenderState) (aid : String) : List Interaction :=
  match alookup st.onboarding_histories aid with
  | some h => h.ratings
  | none => []

/-- The interaction-ledger entries of an agent, empty when none exist. -/
def ledgerOf (st : RecommenderState) (aid : String) : List Interaction :=
  match alookup st.interaction_histories aid with
  | some l => l
  | none => []

/-- Value of the last entry for a song with a truthy rating (Python
truthiness: None and 0 excluded), none when no such entry exists. -/
def lastRatedValue (l : List Interaction) (sid : String) : Option ℚ :=
  ((l.filter (fun i => i.song_id == sid && ratingTruthy i.rating)).getLast?).bind
    (fun i => i.rating.map (fun v => (v : ℚ)))

/-- Value of the last entry for a song whose rating is present, as the
claim words it. -/
def lastPresentValue (l : List Interaction) (sid : String) : Option ℚ :=
  ((l.filter (fun i => i.song_id == sid && i.rating.isSome)).getLast?).bind
    (fun i => i.rating.map (fun v => (v : ℚ)))

@[simp]
theorem lastRatedValue_nil (sid : String) : lastRatedValue [] sid = none := rfl

theorem alookup_addRatings (l : List Interaction) (d : List (String × ℚ)) (sid : String) :
    alookup (addRatings d l) sid = (lastRatedValue l sid).or (alookup d sid) := by
  induction l generalizing d with
  | nil => simp [addRatings]
  | cons i t ih =>
    unfold addRatings at ih ⊢
    simp only [List.foldl_cons]
    rw [ih]
    by_cases hmatch : (i.song_id == sid && ratingTruthy i.rating) = true
    · have hparts := Bool.and_eq_true_iff.mp hmatch
      have hsid : i.song_id = sid := by simpa using hparts.1
      have htr : ratingTruthy i.rating = true := hparts.2
      obtain ⟨v, hr⟩ : ∃ v, i.rating = some v := by
        cases hrr : i.rating with
        | none => rw [hrr] at htr; simp [ratingTruthy] at htr
        | some v => exact ⟨v, rfl⟩
      have hstep : alookup (if ratingTruthy i.rating
          then dictSet d i.song_id ((i.rating.getD 0 : ℤ) : ℚ) else d) sid
          = some ((v : ℤ) : ℚ) := by
        rw [if_pos htr, alookup_dictSet, if_pos hsid, hr]
        rfl
      have hf : (i :: t).filter (fun i => i.song_id == sid && ratingTruthy i.rating)
          = i :: t.filter (fun i => i.song_id == sid && ratingTruthy i.rating) :=
        List.filter_cons_of_pos hmatch
      cases hft : t.filter (fun i => i.song_id == sid && ratingTruthy i.rating) with
      | nil =>
        have h1 : lastRatedValue t sid = none := by
          unfold lastRatedValue
          rw [hft]
          rfl
        have h2 : lastRatedValue (i :: t) sid = some ((v : ℤ) : ℚ) := by
          unfold lastRatedValue
          rw [hf, hft]
          simp [hr]
        rw [h1, h2, hstep, Option.none_or]
        simp
      | cons x xs =>
        have hlast : (x :: xs).getLast?.isSome := List.getLast?_isSome.mpr (List.cons_ne_nil x xs)
        obtain ⟨j, hj⟩ := Option.isSome_iff_exists.mp hlast
        have hjmem : j ∈ t.filter (fun i => i.song_id == sid && ratingTruthy i.rating) := by
          rw [hft]
          exact List.mem_of_getLast?_eq_some hj
        have hjtr : ratingTruthy j.rating = true :=
          (Bool.and_eq_true_iff.mp (List.mem_filter.mp hjmem).2).2
        obtain ⟨w, hjr⟩ : ∃ w, j.rating = some w := by
          cases hrr : j.rating with
          | none => rw [hrr] at hjtr; simp [ratingTruthy] at hjtr
          | some w => exact ⟨w, rfl⟩
        have h1 : lastRatedValue t sid = some ((w : ℤ) : ℚ) := by
          unfold lastRatedValue
          rw [hft, hj]
          simp [hjr]
        have h2 : lastRatedValue (i :: t) sid = some ((w : ℤ) : ℚ) := by
          unfold lastRatedValue
          rw [hf, hft]
          have hcc : (i :: x :: xs).getLast? = (x :: xs).getLast? := List.getLast?_cons_cons
          rw [hcc, hj]
          simp [hjr]
        rw [h1, h2]
        simp
    · have hf : (i :: t).filter (fun i => i.song_id == sid && ratingTruthy i.rating)
          = t.filter (fun i => i.song_id == sid && ratingTruthy i.rating) :=
        List.filter_cons_of_neg (by simpa using hmatch)
      have h2 : lastRatedValue (i :: t) sid = lastRatedValue t sid := by
        unfold lastRatedValue
        rw [hf]
      have hstep : alookup (if ratingTruthy i.rating
          then dictSet d i.song_id ((i.rating.getD 0 : ℤ) : ℚ) else d) sid
          = alookup d sid := by
        by_cases htr : ratingTruthy i.rating = true
        · have hsid : ¬(i.song_id == sid) = true := by
            intro hh
            exact hmatch (by simp [hh, htr])
          rw [if_pos htr, alookup_dictSet, if_neg (by simpa using hsid)]
        · rw [if_neg htr]
      rw [h2, hstep]

theorem lastRatedValue_append (a b : List Interaction) (sid : String) :
    lastRatedValue (a ++ b) sid = (lastRatedValue b sid).or (lastRatedValue a sid) := by
  unfold lastRatedValue
  rw [List.filter_append, List.getLast?_append]
  cases hb : (b.filter (fun i => i.song_id == sid && ratingTruthy i.rating)).getLast? with
  | none => simp
  | some j =>
    have hjmem : j ∈ b.filter (fun i => i.song_id == sid && ratingTruthy i.rating) :=
      List.mem_of_getLast?_eq_some hb
    have hjtr : ratingTruthy j.rating = true :=
      (Bool.and_eq_true_iff.mp (List.mem_filter.mp hjmem).2).2
    obtain ⟨w, hjr⟩ : ∃ w, j.rating = some w := by
      cases hrr : j.rating with
      | none => rw [hrr] at hjtr; simp [ratingTruthy] at hjtr
      | some w => exact ⟨w, rfl⟩
    simp [hjr]

theorem lastPresentValue_append (a b : List Interaction) (sid : String) :
    lastPresentValue (a ++ b) sid = (lastPresentValue b sid).or (lastPresentValue a sid) := by
  unfold lastPresentValue
  rw [List.filter_append, List.getLast?_append]
  cases hb : (b.filter (fun i => i.song_id == sid && i.rating.isSome)).getLast? with
  | none => simp
  | some j =>
    have hjmem : j ∈ b.filter (fun i => i.song_id == sid && i.rating.isSome) :=
      List.mem_of_getLast?_eq_some hb
    have hjs : j.rating.isSome = true :=
      (Bool.and_eq_true_iff.mp (List.mem_filter.mp hjmem).2).2
    obtain ⟨w, hjr⟩ := Option.isSome_iff_exists.mp hjs
    simp [hjr]

theorem lastRatedValue_eq_present (l : List Interaction) (hv : ValidRatings l)
    (sid : String) : lastRatedValue l sid = lastPresentValue l sid := by
  unfold lastRatedValue lastPresentValue
  have hfl : l.filter (fun i => i.song_id == sid && ratingTruthy i.rating)
      = l.filter (fun i => i.song_id == sid && i.rating.isSome) := by
    apply List.filter_congr
    intro i hi
    rcases hv i hi with h | ⟨v, hv', h1, h5⟩
    · simp [h, ratingTruthy]
    · have hvne : v ≠ 0 := by omega
      simp [hv', ratingTruthy, hvne]
  rw [hfl]

/-- C10: the merged rating map returns, for each song, the value of the
last-appended entry with a present rating, onboarding entries first and
interaction-ledger entries after them — so a ledger rating overwrites an
onboarding rating for the same song, among several ledger entries the last
rating wins, and entries with an absent rating contribute nothing; in
particular when the ledger holds any rated entry for the song, the result
is the ledger's last rating. -/
theorem get_agent_ratings_correct (st : RecommenderState) (aid sid : String)
    (honb : ValidRatings (onbSessionRatings st aid))
    (hled : ValidRatings (ledgerOf st aid)) :
    (alookup (get_agent_ratings st aid) sid
      = lastPresentValue (onbSessionRatings st aid ++ ledgerOf st aid) sid)
    ∧ (lastPresentValue (ledgerOf st aid) sid ≠ none →
        alookup (get_agent_ratings st aid) sid
          = lastPresentValue (ledgerOf st aid) sid) := by
  have hmain : alookup (get_agent_ratings st aid) sid
      = (lastRatedValue (ledgerOf st aid) sid).or
          (lastRatedValue (onbSessionRatings st aid) sid) := by
    unfold get_agent_ratings onbSessionRatings ledgerOf
    cases ho : alookup st.onboarding_histories aid with
    | none =>
      cases hi : alookup st.interaction_histories aid with
      | none => simp
      | some l => rw [alookup_addRatings]; simp
    | some h =>
      cases hi : alookup st.interaction_histories aid with
      | none => rw [alookup_addRatings]; simp
      | some l =>
        rw [alookup_addRatings, alookup_addRatings, alookup_nil, Option.or_none]
  constructor
  · rw [hmain, lastRatedValue_eq_present _ hled sid,
      lastRatedValue_eq_present _ honb sid, lastPresentValue_append]
  · intro hne
    rw [hmain, lastRatedValue_eq_present _ hled sid]
    cases hc : lastPresentValue (ledgerOf st aid) sid with
    | none => exact absurd hc hne
    | some q =>
      simp

/-- A state where agent A rated song s1 with 3 during onboarding and with
5 in a later ledger interaction. -/
def stC10 : RecommenderState :=
  ⟨[songEx], [("A", ⟨[⟨"s1", some 3, 0⟩], [], profileEx⟩)],
    [("A", [⟨"s1", some 5, 1⟩])]⟩

/-- Witness for C10: agent A's merged map returns the ledger's rating 5
for s1, overriding the onboarding rating 3. -/
theorem get_agent_ratings_correct_witness :
    alookup (get_agent_ratings stC10 "A") "s1"
      = lastPresentValue (ledgerOf stC10 "A") "s1" := by
  refine (get_agent_ratings_correct stC10 "A" "s1" ?_ ?_).2 ?_
  · intro i hi
    simp [onbSessionRatings, stC10] at hi
    subst hi
    exact Or.inr ⟨3, rfl, by norm_num, by norm_num⟩
  · intro i hi
    simp [ledgerOf, stC10] at hi
    subst hi
    exact Or.inr ⟨5, rfl, by norm_num, by norm_num⟩
  · simp [lastPresentValue, ledgerOf, stC10]

/-! ### Collaborative similarity (src/recommender.py, claim C7) -/

/-- The commonly rated songs of two rating maps — the set intersection of
src/recommender.py line 180, enumerated in the first map's key order. The
Python set's iteration order is unspecified, but both rating vectors are
built from the same set object, and cosine similarity is invariant under
simultaneously permuting both vectors, so any fixed enumeration yields the
same value. -/
def commonSongs (r1 r2 : List (String × ℚ)) : List String :=
  (akeys r1).filter (fun s => s ∈ akeys r2)

/-- The rating a map assigns to a song (lines 184-185 index only songs
both maps contain, so the 0 default is never read there). -/
def ratedValue (r : List (String × ℚ)) (s : String) : ℚ := (alookup r s).getD 0

/-- Dot product of two song-indexed vectors enumerated along a key list. -/
def dotOn (l : List String) (f g : String → ℚ) : ℚ :=
  (l.map (fun s => f s * g s)).sum

/-- RecommenderManager._calculate_rating_similarity (src/recommender.py
lines 175-187): 0 when the maps share no rated song, otherwise the cosine
similarity of the two rating vectors restricted to the common songs
(sklearn's cosine_similarity of the two aligned vectors). -/
noncomputable def calculate_rating_similarity (r1 r2 : List (String × ℚ)) : ℝ :=
  let common := commonSongs r1 r2
  if common = [] then 0
  else
    ((dotOn common (ratedValue r1) (ratedValue r2) : ℚ) : ℝ)
      / (Real.sqrt ((dotOn common (ratedValue r1) (ratedValue r1) : ℚ) : ℝ)
         * Real.sqrt ((dotOn common (ratedValue r2) (ratedValue r2) : ℚ) : ℝ))

theorem dotOn_comm (l : List String) (f g : String → ℚ) : dotOn l f g = dotOn l g f := by
  unfold dotOn
  have hfg : (fun s => f s * g s) = fun s => g s * f s := funext fun s => mul_comm _ _
  rw [hfg]

theorem dotOn_perm {l1 l2 : List String} (h : l1.Perm l2) (f g : String → ℚ) :
    dotOn l1 f g = dotOn l2 f g :=
  (h.map _).sum_eq

/-- C7: collaborative similarity is symmetric, and it is 0 whenever the
two maps share no commonly rated song. -/
theorem rating_similarity_correct (r1 r2 : List (String × ℚ))
    (h1 : (akeys r1).Nodup) (h2 : (akeys r2).Nodup) :
    calculate_rating_similarity r1 r2 = calculate_rating_similarity r2 r1
    ∧ ((∀ s, ¬(s ∈ akeys r1 ∧ s ∈ akeys r2)) →
        calculate_rating_similarity r1 r2 = 0) := by
  constructor
  · have hperm : (commonSongs r1 r2).Perm (commonSongs r2 r1) := by
      apply (List.perm_ext_iff_of_nodup (h1.filter _) (h2.filter _)).mpr
      intro s
      simp only [List.mem_filter, decide_eq_true_eq]
      constructor
      · rintro ⟨ha, hb⟩; exact ⟨hb, ha⟩
      · rintro ⟨ha, hb⟩; exact ⟨hb, ha⟩
    unfold calculate_rating_similarity
    by_cases hc : commonSongs r1 r2 = []
    · have hc2 : commonSongs r2 r1 = [] := by
        rw [hc] at hperm
        exact hperm.symm.eq_nil
      rw [if_pos hc, if_pos hc2]
    · have hc' : commonSongs r2 r1 ≠ [] := by
        intro hh
        rw [hh] at hperm
        exact hc hperm.eq_nil
      rw [if_neg hc, if_neg hc']
      rw [show dotOn (commonSongs r1 r2) (ratedValue r1) (ratedValue r2)
          = dotOn (commonSongs r2 r1) (ratedValue r2) (ratedValue r1) from
          (dotOn_perm hperm _ _).trans (dotOn_comm _ _ _),
        show dotOn (commonSongs r1 r2) (ratedValue r1) (ratedValue r1)
          = dotOn (commonSongs r2 r1) (ratedValue r1) (ratedValue r1) from
          dotOn_perm hperm _ _,
        show dotOn (commonSongs r1 r2) (ratedValue r2) (ratedValue r2)
          = dotOn (commonSongs r2 r1) (ratedValue r2) (ratedValue r2) from
          dotOn_perm hperm _ _]
      rw [mul_comm (Real.sqrt _) (Real.sqrt _)]
  · intro hnone
    unfold calculate_rating_similarity
    rw [if_pos]
    unfold commonSongs
    rw [List.filter_eq_nil_iff]
    intro s hs
    simp only [decide_eq_true_eq]
    intro hsb
    exact hnone s ⟨hs, hsb⟩

/-- Witness for C7: two one-song maps on different songs share no common
song, so the theorem's zero case applies. -/
theorem rating_similarity_correct_witness :
    calculate_rating_similarity [("a", (5 : ℚ))] [("b", (4 : ℚ))] = 0 := by
  apply (rating_similarity_correct [("a", (5 : ℚ))] [("b", (4 : ℚ))]
    (by simp [akeys]) (by simp [akeys])).2
  intro s
  rintro ⟨ha, hb⟩
  simp [akeys] at ha hb
  rw [ha] at hb
  exact absurd hb (by decide)

/-! ### Collaborative recommendations (src/recommender.py, claim C3) -/

/-- Sort pairs descending by the second (real-valued) component — the
`sorted(..., key=score, reverse=True)` calls of src/recommender.py lines
92-96 and 173. -/
noncomputable def sortDescSnd {β : Type} (l : List (β × ℝ)) : List (β × ℝ) :=
  letI : DecidableRel (fun x y : β × ℝ => y.2 ≤ x.2) := fun _ _ => Classical.propDecidable _
  List.insertionSort (fun x y => y.2 ≤ x.2) l

/-- RecommenderManager._find_similar_agents (src/recommender.py lines
157-173): empty without an onboarding history; otherwise every other
onboarded agent paired with its rating similarity to the target, sorted
descending by similarity. -/
noncomputable def find_similar_agents (st : RecommenderState) (aid : String) :
    List (String × ℝ) :=
  if alookup st.onboarding_histories aid = none then []
  else
    sortDescSnd (((akeys st.onboarding_histories).filter (fun oid => oid != aid)).map
      (fun oid => (oid, calculate_rating_similarity (get_agent_ratings st aid)
        (get_agent_ratings st oid))))

/-- The accumulation `recommendations[song_id] += rating * similarity`
with 0 initialisation (src/recommender.py lines 86-90): add to an existing
entry in place, append a fresh entry at the end. -/
def dictAdd (d : List (String × ℝ)) (k : String) (x : ℝ) : List (String × ℝ) :=
  if (alookup d k).isSome then d.map (fun p => if p.1 = k then (p.1, p.2 + x) else p)
  else d ++ [(k, x)]

/-- The neighbor-weighted candidate scores of
_get_collaborative_recommendations (src/recommender.py lines 80-90): for
each similar agent and each of its rated songs the target has not rated,
accumulate rating times similarity. -/
noncomputable def neighborScores (st : RecommenderState) (aid : String) :
    List (String × ℝ) :=
  (find_similar_agents st aid).foldl (fun recs pair =>
    (get_agent_ratings st pair.1).foldl (fun recs sr =>
      if sr.1 ∈ akeys (get_agent_ratings st aid) then recs
      else dictAdd recs sr.1 ((sr.2 : ℝ) * pair.2)) recs) []

/-- The body of _get_collaborative_recommendations after its cold-start
gate (src/recommender.py lines 76-104): empty when the target has no
ratings, otherwise the top `n` neighbor-weighted songs resolved through
the catalog. -/
noncomputable def neighborWeightedRecs (st : RecommenderState) (aid : String) (n : ℕ) :
    List Song :=
  if get_agent_ratings st aid = [] then []
  else ((sortDescSnd (neighborScores st aid)).take n).filterMap
    (fun p => get_song_by_id st p.1)

/-- RecommenderManager._get_collaborative_recommendations
(src/recommender.py lines 72-104): an empty list when fewer than 2 agents
have interaction histories, the neighbor-weighted computation otherwise. -/
noncomputable def get_collaborative_recommendations (st : RecommenderState)
    (a : MusicAgent) (n : ℕ) : List Song :=
  if st.interaction_histories.length < 2 then []
  else neighborWeightedRecs st a.agent_id n

/-- Number of agents whose merged rating map is nonempty — "agents with
rating histories" as the claim words it. -/
def ratersCount (st : RecommenderState) : ℕ :=
  ((akeys st.onboarding_histories ++ akeys st.interaction_histories).toFinset.filter
    (fun aid => get_agent_ratings st aid ≠ [])).card

/-- The example song under the id s2. -/
def songS2 : Song := { songEx with id := "s2" }

/-- A state where agents A and B both have onboarding ratings (so two
agents have rating histories) but nobody has an interaction history. -/
def stC3 : RecommenderState :=
  ⟨[songS2],
   [("A", ⟨[⟨"s1", some 5, 0⟩], [], profileEx⟩),
    ("B", ⟨[⟨"s1", some 5, 0⟩, ⟨"s2", some 4, 0⟩], [], profileEx⟩)],
   []⟩

/-- Agent A of the C3 counterexample. -/
def agentA : MusicAgent := { agentEx with agent_id := "A" }

theorem get_agent_ratings_stC3_A : get_agent_ratings stC3 "A" = [("s1", (5 : ℚ))] := by
  simp [get_agent_ratings, stC3, addRatings, ratingTruthy, dictSet]

theorem get_agent_ratings_stC3_B :
    get_agent_ratings stC3 "B" = [("s1", (5 : ℚ)), ("s2", (4 : ℚ))] := by
  simp [get_agent_ratings, stC3, addRatings, ratingTruthy, dictSet]

/-- C3 counterexample: in stC3 two agents have rating histories, yet
_get_collaborative_recommendations returns the empty list for agent A
instead of proceeding to the neighbor-weighted computation, whose result
is nonempty — the source's gate counts interaction histories, of which
there are none here. -/
theorem collaborative_gate_counterexample :
    2 ≤ ratersCount stC3
    ∧ get_collaborative_recommendations stC3 agentA 5 = []
    ∧ neighborWeightedRecs stC3 "A" 5 ≠ [] := by
  refine ⟨?_, ?_, ?_⟩
  · have hlt : 1 < ratersCount stC3 := by
      apply Finset.one_lt_card.mpr
      refine ⟨"A", ?_, "B", ?_, by decide⟩
      · exact Finset.mem_filter.mpr
          ⟨List.mem_toFinset.mpr (by simp [stC3, akeys]),
           by rw [get_agent_ratings_stC3_A]; simp⟩
      · exact Finset.mem_filter.mpr
          ⟨List.mem_toFinset.mpr (by simp [stC3, akeys]),
           by rw [get_agent_ratings_stC3_B]; simp⟩
    omega
  · simp [get_collaborative_recommendations, stC3]
  · have hfs : find_similar_agents stC3 "A"
        = [("B", calculate_rating_similarity (get_agent_ratings stC3 "A")
            (get_agent_ratings stC3 "B"))] := by
      unfold find_similar_agents
      rw [if_neg (by simp [stC3])]
      simp [stC3, akeys, sortDescSnd]
    have hns : neighborScores stC3 "A"
        = [("s2", ((4 : ℚ) : ℝ) * calculate_rating_similarity (get_agent_ratings stC3 "A")
            (get_agent_ratings stC3 "B"))] := by
      unfold neighborScores
      rw [hfs]
      simp only [List.foldl_cons, List.foldl_nil]
      rw [get_agent_ratings_stC3_A, get_agent_ratings_stC3_B]
      simp [akeys, dictAdd]
    unfold neighborWeightedRecs
    rw [if_neg (by rw [get_agent_ratings_stC3_A]; simp), hns]
    simp [sortDescSnd, get_song_by_id, stC3, songS2]

theorem get_agent_ratings_mem_of_ne_nil (st : RecommenderState) (aid : String)
    (h : get_agent_ratings st aid ≠ []) :
    aid ∈ akeys st.onboarding_histories ++ akeys st.interaction_histories := by
  unfold get_agent_ratings at h
  cases ho : alookup st.onboarding_histories aid with
  | some hh =>
    exact List.mem_append_left _ ((alookup_isSome_iff _ _).mp (by rw [ho]; rfl))
  | none =>
    cases hi : alookup st.interaction_histories aid with
    | some l =>
      exact List.mem_append_right _ ((alookup_isSome_iff _ _).mp (by rw [hi]; rfl))
    | none =>
      rw [ho, hi] at h
      simp at h

theorem foldl_fixed {γ β : Type} (l : List β) (f : γ → β → γ) (acc : γ)
    (h : ∀ acc' x, x ∈ l → f acc' x = acc') : l.foldl f acc = acc := by
  induction l generalizing acc with
  | nil => rfl
  | cons x t ih =>
    rw [List.foldl_cons, h acc x (List.mem_cons_self x t)]
    exact ih acc (fun acc' y hy => h acc' y (List.mem_cons_of_mem x hy))

theorem find_similar_agents_ne (st : RecommenderState) (aid : String)
    (pair : String × ℝ) (h : pair ∈ find_similar_agents st aid) : pair.1 ≠ aid := by
  unfold find_similar_agents at h
  by_cases ho : alookup st.onboarding_histories aid = none
  · rw [if_pos ho] at h
    simp at h
  · rw [if_neg ho] at h
    unfold sortDescSnd at h
    rw [List.mem_insertionSort] at h
    obtain ⟨oid, hoid, heq⟩ := List.mem_map.mp h
    have hbne : (oid != aid) = true := (List.mem_filter.mp hoid).2
    rw [← heq]
    simpa using hbne

/-- C3 (amended): _get_collaborative_recommendations returns an empty list
(not an error) whenever fewer than 2 agents have interaction histories and
proceeds to the neighbor-weighted computation whenever at least 2 do — the
gate counts interaction histories, rated or not, not rating histories;
the claim's true half also holds: with fewer than 2 agents owning a
nonempty rating map the result is always the empty list. -/
theorem collaborative_gate_correct (st : RecommenderState) (a : MusicAgent) (n : ℕ) :
    (st.interaction_histories.length < 2 →
      get_collaborative_recommendations st a n = [])
    ∧ (2 ≤ st.interaction_histories.length →
      get_collaborative_recommendations st a n = neighborWeightedRecs st a.agent_id n)
    ∧ (ratersCount st < 2 → get_collaborative_recommendations st a n = []) := by
  refine ⟨?_, ?_, ?_⟩
  · intro hgate
    unfold get_collaborative_recommendations
    rw [if_pos hgate]
  · intro hgate
    unfold get_collaborative_recommendations
    rw [if_neg (by omega)]
  · intro hcount
    unfold get_collaborative_recommendations
    by_cases hgate : st.interaction_histories.length < 2
    · rw [if_pos hgate]
    · rw [if_neg hgate]
      unfold neighborWeightedRecs
      by_cases har : get_agent_ratings st a.agent_id = []
      · rw [if_pos har]
      · rw [if_neg har]
        have hself : a.agent_id ∈ (akeys st.onboarding_histories
            ++ akeys st.interaction_histories).toFinset.filter
            (fun aid => get_agent_ratings st aid ≠ []) :=
          Finset.mem_filter.mpr
            ⟨List.mem_toFinset.mpr (get_agent_ratings_mem_of_ne_nil st a.agent_id har),
             by simpa using har⟩
        have hothers : ∀ oid, oid ≠ a.agent_id → get_agent_ratings st oid = [] := by
          intro oid hne
          by_contra hoid
          have hmem : oid ∈ (akeys st.onboarding_histories
              ++ akeys st.interaction_histories).toFinset.filter
              (fun aid => get_agent_ratings st aid ≠ []) :=
            Finset.mem_filter.mpr
              ⟨List.mem_toFinset.mpr (get_agent_ratings_mem_of_ne_nil st oid hoid),
               by simpa using hoid⟩
          have hlt : 1 < ratersCount st :=
            Finset.one_lt_card.mpr ⟨oid, hmem, a.agent_id, hself, hne⟩
          omega
        have hrecs : neighborScores st a.agent_id = [] := by
          unfold neighborScores
          apply foldl_fixed
          intro acc pair hpair
          rw [hothers pair.1 (find_similar_agents_ne st a.agent_id pair hpair)]
          rfl
        rw [hrecs]
        simp [sortDescSnd]

/-- Witness for the amended C3: in stC3 nobody has an interaction history,
so the gate returns the empty list for agent A. -/
theorem collaborative_gate_correct_witness :
    get_collaborative_recommendations stC3 agentA 5 = [] :=
  (collaborative_gate_correct stC3 agentA 5).1 (by simp [stC3])

/-! ### Recommendation fusion (src/recommender.py, claim C6) -/

/-- The dict entry the content pass writes for the candidate at position
`pair.1` (0-indexed): key its id, value the song with partial score
`0.7 * (1 - position / len)` (src/recommender.py lines 117-122). -/
def contentEntry (c : List Song) (pair : ℕ × Song) : String × Song × ℚ :=
  (pair.2.id, (pair.2, 7/10 * (1 - (pair.1 : ℚ) / (c.length : ℚ))))

/-- The collaborative partial score `0.3 * (1 - position / len)`
(src/recommender.py line 125). -/
def collabWeight (k : List Song) (pair : ℕ × Song) : ℚ :=
  3/10 * (1 - (pair.1 : ℚ) / (k.length : ℚ))

/-- The `all_recs[id]['score'] += score` / fresh-insert step of the
collaborative pass (src/recommender.py lines 126-132): an existing entry
keeps its song and position and gains `x`; a fresh id is appended with the
collaborative song. -/
def dictAddSong (d : List (String × Song × ℚ)) (k : String) (s : Song) (x : ℚ) :
    List (String × Song × ℚ) :=
  if (alookup d k).isSome then d.map (fun p => if p.1 = k then (p.1, p.2.1, p.2.2 + x) else p)
  else d ++ [(k, s, x)]

/-- The content loop of _combine_recommendations (src/recommender.py lines
117-122) building all_recs. -/
def contentPass (c : List Song) : List (String × Song × ℚ) :=
  c.enum.foldl (fun d pair => dictSet d (contentEntry c pair).1 (contentEntry c pair).2) []

/-- The collaborative loop of _combine_recommendations
(src/recommender.py lines 124-132). -/
def collabPass (d : List (String × Song × ℚ)) (k : List Song) :
    List (String × Song × ℚ) :=
  k.enum.foldl (fun d pair => dictAddSong d pair.2.id pair.2 (collabWeight k pair)) d

/-- The all_recs dict after both passes. -/
def fusionDict (c k : List Song) : List (String × Song × ℚ) :=
  collabPass (contentPass c) k

/-- The `sorted(all_recs.values(), key=score, reverse=True)` call
(src/recommender.py lines 134-138). -/
def sortDescScore (l : List (String × Song × ℚ)) : List (String × Song × ℚ) :=
  List.insertionSort (fun x y => y.2.2 ≤ x.2.2) l

/-- RecommenderManager._combine_recommendations (src/recommender.py lines
106-140): position-scored content and collaborative candidates merged by
id, sorted descending by combined score, songs returned. -/
def combine_recommendations (c k : List Song) : List Song :=
  (sortDescScore (fusionDict c k)).map (fun p => p.2.1)

theorem alookup_map_adjust (d : List (String × Song × ℚ)) (k : String) (x : ℚ)
    (key : String) :
    alookup (d.map (fun p => if p.1 = k then (p.1, p.2.1, p.2.2 + x) else p)) key
      = if k = key then (alookup d k).map (fun q => (q.1, q.2 + x))
        else alookup d key := by
  induction d with
  | nil => simp
  | cons p t ih =>
    obtain ⟨pk, pv⟩ := p
    by_cases hpk : pk = k
    · subst hpk
      simp only [List.map_cons, ite_true, eq_self_iff_true]
      by_cases hk : pk = key
      · subst hk
        simp
      · simp [hk, ih]
    · simp only [List.map_cons, if_neg hpk]
      by_cases hk2 : pk = key
      · subst hk2
        have hkne : ¬k = pk := fun hh => hpk hh.symm
        simp [hkne]
      · simp [hk2, hpk, ih]

theorem alookup_dictAddSong (d : List (String × Song × ℚ)) (k : String) (s : Song)
    (x : ℚ) (key : String) :
    alookup (dictAddSong d k s x) key
      = if k = key then
          (match alookup d k with
           | some q => some (q.1, q.2 + x)
           | none => some (s, x))
        else alookup d key := by
  unfold dictAddSong
  by_cases hp : (alookup d k).isSome
  · rw [if_pos hp, alookup_map_adjust]
    obtain ⟨q, hq⟩ := Option.isSome_iff_exists.mp hp
    by_cases hk : k = key
    · subst hk
      rw [hq]
      rfl
    · simp [hk]
  · rw [if_neg hp, alookup_append]
    have hnone : alookup d k = none := by
      cases hc : alookup d k
      · rfl
      · rw [hc] at hp; simp at hp
    by_cases hk : k = key
    · subst hk
      simp [hnone]
    · simp [hk, Option.or_none]

theorem foldl_dictSet_fresh {α : Type} :
    ∀ (items : List (String × α)) (d : List (String × α)),
      (∀ p ∈ items, p.1 ∉ akeys d) → ((items.map (·.1)).Nodup) →
      items.foldl (fun d p => dictSet d p.1 p.2) d = d ++ items := by
  intro items
  induction items with
  | nil =>
    intro d _ _
    simp
  | cons p t ih =>
    intro d hfresh hnd
    rw [List.map_cons] at hnd
    obtain ⟨hp1, hnd'⟩ := List.nodup_cons.mp hnd
    have hnone : alookup d p.1 = none :=
      (alookup_eq_none_iff d p.1).mpr (hfresh p (List.mem_cons_self p t))
    have hstep : dictSet d p.1 p.2 = d ++ [p] := by
      unfold dictSet
      rw [hnone]
      simp
    rw [List.foldl_cons, hstep, ih (d ++ [p]) ?_ hnd']
    · simp
    · intro q hq
      unfold akeys
      rw [List.map_append]
      intro hmem
      rcases List.mem_append.mp hmem with h | h
      · exact hfresh q (List.mem_cons_of_mem p hq) h
      · simp only [List.map_cons, List.map_nil, List.mem_singleton] at h
        exact hp1 (h ▸ List.mem_map.mpr ⟨q, hq, rfl⟩)

theorem alookup_of_mem {α : Type} (d : List (String × α)) (hnd : (akeys d).Nodup)
    (k : String) (v : α) (hm : (k, v) ∈ d) : alookup d k = some v := by
  induction d with
  | nil => simp at hm
  | cons p t ih =>
    rw [akeys_cons] at hnd
    obtain ⟨hp, ht⟩ := List.nodup_cons.mp hnd
    rcases List.mem_cons.mp hm with h | h
    · rw [← h]
      simp
    · have hkne : ¬p.1 = k := by
        intro hh
        apply hp
        rw [hh]
        exact List.mem_map.mpr ⟨(k, v), h, rfl⟩
      obtain ⟨pk, pv⟩ := p
      rw [alookup_cons, if_neg hkne]
      exact ih ht h

theorem contentPass_eq (c : List Song) (hnd : (c.map (·.id)).Nodup) :
    contentPass c = c.enum.map (contentEntry c) := by
  have hkeys : ((c.enum.map (contentEntry c)).map (·.1)) = c.map (·.id) := by
    rw [List.map_map]
    rw [show ((fun p : String × Song × ℚ => p.1) ∘ contentEntry c)
        = (fun s : Song => s.id) ∘ Prod.snd from rfl]
    rw [← List.map_map, List.enum_map_snd]
  calc contentPass c
      = (c.enum.map (contentEntry c)).foldl (fun d p => dictSet d p.1 p.2) [] := by
        unfold contentPass
        rw [List.foldl_map]
    _ = [] ++ c.enum.map (contentEntry c) := by
        apply foldl_dictSet_fresh
        · intro p _
          simp [akeys]
        · rw [hkeys]
          exact hnd
    _ = c.enum.map (contentEntry c) := by simp

theorem akeys_contentPass (c : List Song) (hnd : (c.map (·.id)).Nodup) :
    akeys (contentPass c) = c.map (·.id) := by
  rw [contentPass_eq c hnd]
  unfold akeys
  rw [List.map_map]
  rw [show ((fun p : String × Song × ℚ => p.1) ∘ contentEntry c)
      = (fun s : Song => s.id) ∘ Prod.snd from rfl]
  rw [← List.map_map, List.enum_map_snd]

theorem alookup_contentPass (c : List Song) (hnd : (c.map (·.id)).Nodup)
    (i : ℕ) (hi : i < c.length) :
    alookup (contentPass c) (c.get ⟨i, hi⟩).id
      = some (c.get ⟨i, hi⟩, 7/10 * (1 - (i : ℚ) / (c.length : ℚ))) := by
  rw [contentPass_eq c hnd]
  apply alookup_of_mem
  · show ((c.enum.map (contentEntry c)).map (·.1)).Nodup
    rw [List.map_map]
    rw [show ((fun p : String × Song × ℚ => p.1) ∘ contentEntry c)
        = (fun s : Song => s.id) ∘ Prod.snd from rfl]
    rw [← List.map_map, List.enum_map_snd]
    exact hnd
  · apply List.mem_map.mpr
    refine ⟨(i, c.get ⟨i, hi⟩), ?_, rfl⟩
    have hilen : i < c.enum.length := by
      rw [List.enum_length]
      exact hi
    have hget := List.getElem_enum c i hilen
    have hgg : c.enum.get ⟨i, hilen⟩ = (i, c.get ⟨i, hi⟩) := by
      rw [List.get_eq_getElem, hget]
      rw [List.get_eq_getElem]
    rw [← hgg]
    exact List.get_mem c.enum i hilen

theorem alookup_contentPass_notin (c : List Song) (hnd : (c.map (·.id)).Nodup)
    (key : String) (h : key ∉ c.map (·.id)) :
    alookup (contentPass c) key = none := by
  rw [alookup_eq_none_iff, akeys_contentPass c hnd]
  exact h

theorem mem_enum_get (l : List Song) (j : ℕ) (hj : j < l.length) :
    (j, l.get ⟨j, hj⟩) ∈ l.enum := by
  have hjlen : j < l.enum.length := by
    rw [List.enum_length]
    exact hj
  have hget := List.getElem_enum l j hjlen
  have hgg : l.enum.get ⟨j, hjlen⟩ = (j, l.get ⟨j, hj⟩) := by
    rw [List.get_eq_getElem, hget, List.get_eq_getElem]
  rw [← hgg]
  exact List.get_mem l.enum j hjlen

theorem alookup_collabFold_notin (l : List (ℕ × Song)) (w : ℕ × Song → ℚ)
    (d : List (String × Song × ℚ)) (key : String)
    (h : ∀ p ∈ l, p.2.id ≠ key) :
    alookup (l.foldl (fun d pair => dictAddSong d pair.2.id pair.2 (w pair)) d) key
      = alookup d key := by
  induction l generalizing d with
  | nil => rfl
  | cons p t ih =>
    rw [List.foldl_cons, ih _ (fun q hq => h q (List.mem_cons_of_mem p hq)),
      alookup_dictAddSong, if_neg (h p (List.mem_cons_self p t))]

theorem alookup_collabFold_in (w : ℕ × Song → ℚ) (l : List (ℕ × Song)) :
    ∀ (d : List (String × Song × ℚ)) (j : ℕ) (s : Song),
      (l.map (fun p => p.2.id)).Nodup → (j, s) ∈ l →
      alookup (l.foldl (fun d pair => dictAddSong d pair.2.id pair.2 (w pair)) d) s.id
        = match alookup d s.id with
          | some q => some (q.1, q.2 + w (j, s))
          | none => some (s, w (j, s)) := by
  induction l with
  | nil =>
    intro d j s _ hmem
    simp at hmem
  | cons p t ih =>
    intro d j s hnd hmem
    rw [List.map_cons] at hnd
    obtain ⟨hp1, hnd'⟩ := List.nodup_cons.mp hnd
    rcases List.mem_cons.mp hmem with h | h
    · subst h
      rw [List.foldl_cons]
      have hne : ∀ q ∈ t, q.2.id ≠ s.id := by
        intro q hq heq
        exact hp1 (heq ▸ List.mem_map.mpr ⟨q, hq, rfl⟩)
      rw [alookup_collabFold_notin t w _ s.id hne, alookup_dictAddSong]
      simp
    · have hpne : p.2.id ≠ s.id := by
        intro heq
        apply hp1
        rw [heq]
        exact List.mem_map.mpr ⟨(j, s), h, rfl⟩
      rw [List.foldl_cons, ih _ j s hnd' h, alookup_dictAddSong, if_neg hpne]

theorem fusionDict_entry (c k : List Song) (hnd : (c.map (·.id)).Nodup) :
    ∀ p ∈ fusionDict c k,
      p.2.1.id = p.1 ∧ (p.1 ∈ c.map (·.id) ∨ p.1 ∈ k.map (·.id)) := by
  unfold fusionDict collabPass
  have hgen : ∀ (l : List (ℕ × Song)),
      (∀ q ∈ l, q.2 ∈ k) →
      ∀ (d : List (String × Song × ℚ)),
      (∀ p ∈ d, p.2.1.id = p.1 ∧ (p.1 ∈ c.map (·.id) ∨ p.1 ∈ k.map (·.id))) →
      ∀ p ∈ l.foldl (fun d pair => dictAddSong d pair.2.id pair.2 (collabWeight k pair)) d,
        p.2.1.id = p.1 ∧ (p.1 ∈ c.map (·.id) ∨ p.1 ∈ k.map (·.id)) := by
    intro l
    induction l with
    | nil =>
      intro _ d hd
      exact hd
    | cons q t ih =>
      intro hql d hd
      rw [List.foldl_cons]
      apply ih (fun q' hq' => hql q' (List.mem_cons_of_mem q hq'))
      intro p hp
      unfold dictAddSong at hp
      by_cases hin : (alookup d q.2.id).isSome
      · rw [if_pos hin] at hp
        obtain ⟨p0, hp0, heq⟩ := List.mem_map.mp hp
        by_cases hcase : p0.1 = q.2.id
        · rw [if_pos hcase] at heq
          rw [← heq]
          obtain ⟨h1, h2⟩ := hd p0 hp0
          exact ⟨h1, h2⟩
        · rw [if_neg hcase] at heq
          rw [← heq]
          exact hd p0 hp0
      · rw [if_neg hin] at hp
        rcases List.mem_append.mp hp with h | h
        · exact hd p h
        · simp only [List.mem_singleton] at h
          subst h
          refine ⟨rfl, Or.inr ?_⟩
          exact List.mem_map.mpr ⟨q.2, hql q (List.mem_cons_self q t), rfl⟩
  apply hgen
  · intro q hq
    have hq2 : q.2 ∈ k.enum.map Prod.snd := List.mem_map.mpr ⟨q, hq, rfl⟩
    rwa [List.enum_map_snd] at hq2
  · rw [contentPass_eq c hnd]
    intro p hp
    obtain ⟨pair, hpair, heq⟩ := List.mem_map.mp hp
    rw [← heq]
    refine ⟨rfl, Or.inl ?_⟩
    have hp2 : pair.2 ∈ c.enum.map Prod.snd := List.mem_map.mpr ⟨pair, hpair, rfl⟩
    rw [List.enum_map_snd] at hp2
    exact List.mem_map.mpr ⟨pair.2, hp2, rfl⟩

/-- C6: fusion assigns the candidate at 0-indexed position i of a list of
length L the partial score weight * (1 - i/L) with content weight 0.7 and
collaborative weight 0.3; a song in both lists gets exactly the sum of its
two partial scores, the output is sorted descending by combined score, and
a song in neither input list never appears in the output. -/
theorem combine_recommendations_correct (c k : List Song)
    (hc : (c.map (·.id)).Nodup) (hk : (k.map (·.id)).Nodup) :
    (∀ (i j : ℕ) (hi : i < c.length) (hj : j < k.length),
      (c.get ⟨i, hi⟩).id = (k.get ⟨j, hj⟩).id →
      alookup (fusionDict c k) (c.get ⟨i, hi⟩).id
        = some (c.get ⟨i, hi⟩, 7/10 * (1 - (i : ℚ) / (c.length : ℚ))
            + 3/10 * (1 - (j : ℚ) / (k.length : ℚ))))
    ∧ (∀ (i : ℕ) (hi : i < c.length), (c.get ⟨i, hi⟩).id ∉ k.map (·.id) →
      alookup (fusionDict c k) (c.get ⟨i, hi⟩).id
        = some (c.get ⟨i, hi⟩, 7/10 * (1 - (i : ℚ) / (c.length : ℚ))))
    ∧ (∀ (j : ℕ) (hj : j < k.length), (k.get ⟨j, hj⟩).id ∉ c.map (·.id) →
      alookup (fusionDict c k) (k.get ⟨j, hj⟩).id
        = some (k.get ⟨j, hj⟩, 3/10 * (1 - (j : ℚ) / (k.length : ℚ))))
    ∧ List.Sorted (fun x y => y.2.2 ≤ x.2.2) (sortDescScore (fusionDict c k))
    ∧ combine_recommendations c k = (sortDescScore (fusionDict c k)).map (fun p => p.2.1)
    ∧ (∀ sid : String, sid ∉ c.map (·.id) → sid ∉ k.map (·.id) →
        sid ∉ (combine_recommendations c k).map (·.id)) := by
  have hkenum : (k.enum.map (fun p => p.2.id)).Nodup := by
    rw [show (fun p : ℕ × Song => p.2.id) = (fun s : Song => s.id) ∘ Prod.snd from rfl,
      ← List.map_map, List.enum_map_snd]
    exact hk
  refine ⟨?_, ?_, ?_, ?_, rfl, ?_⟩
  · intro i j hi hj hid
    have h := alookup_collabFold_in (collabWeight k) k.enum (contentPass c) j
      (k.get ⟨j, hj⟩) hkenum (mem_enum_get k j hj)
    rw [← hid, alookup_contentPass c hc i hi] at h
    unfold fusionDict collabPass
    rw [h]
    simp [collabWeight]
  · intro i hi hnotin
    have hne : ∀ p ∈ k.enum, p.2.id ≠ (c.get ⟨i, hi⟩).id := by
      intro p hp heq
      apply hnotin
      rw [← heq]
      have hp2 : p.2 ∈ k.enum.map Prod.snd := List.mem_map.mpr ⟨p, hp, rfl⟩
      rw [List.enum_map_snd] at hp2
      exact List.mem_map.mpr ⟨p.2, hp2, rfl⟩
    unfold fusionDict collabPass
    rw [alookup_collabFold_notin k.enum (collabWeight k) (contentPass c) _ hne,
      alookup_contentPass c hc i hi]
  · intro j hj hnotin
    have h := alookup_collabFold_in (collabWeight k) k.enum (contentPass c) j
      (k.get ⟨j, hj⟩) hkenum (mem_enum_get k j hj)
    rw [alookup_contentPass_notin c hc _ hnotin] at h
    unfold fusionDict collabPass
    rw [h]
    simp [collabWeight]
  · haveI : IsTotal (String × Song × ℚ) (fun x y => y.2.2 ≤ x.2.2) :=
      ⟨fun a b => le_total b.2.2 a.2.2⟩
    haveI : IsTrans (String × Song × ℚ) (fun x y => y.2.2 ≤ x.2.2) :=
      ⟨fun a b c hab hbc => le_trans hbc hab⟩
    exact List.sorted_insertionSort _ _
  · intro sid h1 h2 hmem
    obtain ⟨song, hsong, hsid⟩ := List.mem_map.mp hmem
    obtain ⟨p, hp, hps⟩ := List.mem_map.mp hsong
    have hp' : p ∈ fusionDict c k := by
      unfold sortDescScore at hp
      rwa [List.mem_insertionSort] at hp
    obtain ⟨hid, hmem2⟩ := fusionDict_entry c k hc p hp'
    rcases hmem2 with hcm | hkm
    · apply h1
      rw [← hsid, ← hps, hid]
      exact hcm
    · apply h2
      rw [← hsid, ← hps, hid]
      exact hkm

/-- Witness for C6: with content list [songEx] and collaborative list
[songS2, songEx], the shared song (content position 0, collaborative
position 1) gets exactly the sum of its two positional scores. -/
theorem combine_recommendations_correct_witness :
    alookup (fusionDict [songEx] [songS2, songEx])
        (([songEx] : List Song).get ⟨0, by norm_num⟩).id
      = some (([songEx] : List Song).get ⟨0, by norm_num⟩,
          7/10 * (1 - (0 : ℚ) / (([songEx] : List Song).length : ℚ))
          + 3/10 * (1 - (1 : ℚ) / (([songS2, songEx] : List Song).length : ℚ))) :=
  (combine_recommendations_correct [songEx] [songS2, songEx]
    (by simp) (by simp [songS2, songEx])).1 0 1 (by norm_num) (by norm_num) rfl
